import Mathlib

/-!
Verification of the `http-serve` request-evaluation core.

The Rust sources under `src/` contain two generations of the library:

* `src/lib.rs` (hyper 0.11 era): `parse_range_header`, `any_match`,
  `none_match`, `serve`, `send_multipart`, operating on hyper's pre-parsed
  header types.
* `src/serving.rs` (http crate era): `parse_modified_hdrs`, `serve`,
  `send_multipart`, operating on raw header byte strings via the
  `crate::etag` and `crate::range` modules, which are not present in the
  sources and are therefore modelled from the specification (marked below).

Machine integers (`u64`) are embedded as `Nat`; the single place where the
Rust code can overflow (`range_to + 1` in `parse_range_header`) is embedded
with an explicit `% 2 ^ 64`, matching release-mode wrapping semantics.
Byte strings are `List Nat`; external crates (httpdate formatting/parsing)
are abstracted as explicit oracle parameters, since the spec treats them as
external collaborators.
-/

/-- Modulus of Rust's `u64`. -/
def u64Mod : Nat := 2 ^ 64

/-- ASCII bytes of a Lean string literal (all literals used here are ASCII). -/
def str (s : String) : List Nat := s.data.map Char.toNat

/-- Decimal ASCII rendering of a `u64`, as produced by Rust's `Display`. -/
def decimal (n : Nat) : List Nat := (Nat.toDigits 10 n).map Char.toNat

/-- hyper's `header::ByteRangeSpec`: one element of a `bytes=` range list. -/
inductive ByteRangeSpec where
  | FromTo (range_from range_to : Nat)
  | AllFrom (range_from : Nat)
  | Last (last : Nat)
deriving DecidableEq

/-- hyper's `header::Range`: a parsed `Range:` header. -/
inductive RangeHeader where
  | Bytes (byte_ranges : List ByteRangeSpec)
  | Unregistered (unit value : String)
deriving DecidableEq

/-- Rust's `std::ops::Range<u64>`: the half-open interval `[start, stop)`. -/
structure ByteRange where
  start : Nat
  stop : Nat
deriving DecidableEq

/-- `ResolvedRanges` from `src/lib.rs` (same shape in the spec's data model). -/
inductive ResolvedRanges where
  | None
  | NotSatisfiable
  | Satisfiable (ranges : List ByteRange)
deriving DecidableEq

/-- The loop body of `parse_range_header` (`src/lib.rs` lines 73-96): resolve
each `ByteRangeSpec` against `resource_len`, pushing in client order and
skipping (`continue`) the dropped elements.  `range_to + 1` is a `u64`
addition and is embedded with its wrapping semantics. -/
def resolveSpecs (resource_len : Nat) : List ByteRangeSpec → List ByteRange
  | [] => []
  | ByteRangeSpec.FromTo range_from range_to :: rest =>
      let e := min ((range_to + 1) % u64Mod) resource_len
      if range_from ≥ e then resolveSpecs resource_len rest
      else ⟨range_from, e⟩ :: resolveSpecs resource_len rest
  | ByteRangeSpec.AllFrom range_from :: rest =>
      if range_from ≥ resource_len then resolveSpecs resource_len rest
      else ⟨range_from, resource_len⟩ :: resolveSpecs resource_len rest
  | ByteRangeSpec.Last last :: rest =>
      if last ≥ resource_len then resolveSpecs resource_len rest
      else ⟨resource_len - last, resource_len⟩ :: resolveSpecs resource_len rest

/-- `parse_range_header` from `src/lib.rs` lines 70-103. -/
def parse_range_header (range : Option RangeHeader) (resource_len : Nat) :
    ResolvedRanges :=
  match range with
  | some (RangeHeader.Bytes byte_ranges) =>
      let ranges := resolveSpecs resource_len byte_ranges
      if !ranges.isEmpty then ResolvedRanges.Satisfiable ranges
      else ResolvedRanges.NotSatisfiable
  | _ => ResolvedRanges.None

/-- The per-element resolution as described by the spec's §4.2 table, with the
`u64` wrap of `b + 1` made explicit.  Used to state the order-preserving
`filterMap` characterization of the parser. -/
def resolveSpecElemWrap (resource_len : Nat) : ByteRangeSpec → Option ByteRange
  | ByteRangeSpec.FromTo a b =>
      let e := min ((b + 1) % u64Mod) resource_len
      if a < e then some ⟨a, e⟩ else none
  | ByteRangeSpec.AllFrom a =>
      if a < resource_len then some ⟨a, resource_len⟩ else none
  | ByteRangeSpec.Last n =>
      if n < resource_len then some ⟨resource_len - n, resource_len⟩ else none

theorem resolveSpecs_eq_filterMap (resource_len : Nat)
    (specs : List ByteRangeSpec) :
    resolveSpecs resource_len specs =
      specs.filterMap (resolveSpecElemWrap resource_len) := by
  induction specs with
  | nil => rfl
  | cons s rest ih =>
      cases s with
      | FromTo a b =>
          by_cases hc : a ≥ min ((b + 1) % u64Mod) resource_len
          · simp [resolveSpecs, resolveSpecElemWrap, hc, Nat.not_lt_of_le hc, ih]
          · have hlt : a < min ((b + 1) % u64Mod) resource_len :=
              Nat.lt_of_not_le hc
            simp [resolveSpecs, resolveSpecElemWrap, hc, hlt, ih]
      | AllFrom a =>
          by_cases hc : a ≥ resource_len
          · simp [resolveSpecs, resolveSpecElemWrap, hc, Nat.not_lt_of_le hc, ih]
          · have hlt : a < resource_len := Nat.lt_of_not_le hc
            simp [resolveSpecs, resolveSpecElemWrap, hc, hlt, ih]
      | Last n =>
          by_cases hc : n ≥ resource_len
          · simp [resolveSpecs, resolveSpecElemWrap, hc, Nat.not_lt_of_le hc, ih]
          · have hlt : n < resource_len := Nat.lt_of_not_le hc
            simp [resolveSpecs, resolveSpecElemWrap, hc, hlt, ih]

/-- Claim C1: the code violates the claimed `Satisfiable` invariant.  For the
suffix spec `-0` (`ByteRangeSpec::Last(0)`) against a resource of length 10,
the guard `last >= resource_len` does not fire (0 < 10), so the loop pushes
`Range { start: 10, end: 10 }` — an empty interval with `a = b`, contradicting
"every interval `[a,b)` satisfies `a < b`".  RFC 2616 §14.35.1 (cited by the
code's own test module) and RFC 7233 §2.1 classify a zero suffix-length as
unsatisfiable. -/
theorem c1_last_zero_bug :
    parse_range_header (some (RangeHeader.Bytes [ByteRangeSpec.Last 0])) 10 =
      ResolvedRanges.Satisfiable [⟨10, 10⟩] := by decide

/-- Claim C2: the suffix-length resolution.  `0 < n < L` and `n ≥ L` behave as
claimed (first two conjuncts), but `n = 0` with `L = 7 > 0` yields
`Satisfiable([[7,7)])` — an empty interval — where the claim (and RFC 2616
§14.35.1, which the code's test module cites) requires `NotSatisfiable`. -/
theorem c2_suffix_resolution :
    parse_range_header (some (RangeHeader.Bytes [ByteRangeSpec.Last 2])) 7 =
      ResolvedRanges.Satisfiable [⟨5, 7⟩] ∧
    parse_range_header (some (RangeHeader.Bytes [ByteRangeSpec.Last 9])) 7 =
      ResolvedRanges.NotSatisfiable ∧
    parse_range_header (some (RangeHeader.Bytes [ByteRangeSpec.Last 7])) 7 =
      ResolvedRanges.NotSatisfiable ∧
    parse_range_header (some (RangeHeader.Bytes [ByteRangeSpec.Last 0])) 7 =
      ResolvedRanges.Satisfiable [⟨7, 7⟩] := by decide

/-- Claim C3 (counterexample): the claim predicts that `bytes=0-b` with
`b = 2^64 - 1 = 18446744073709551615` against `L = 10` resolves to
`[0, min(b+1, L)) = [0, 10)` (a non-empty, hence kept, interval), but the
code's `u64` computation of `b + 1` wraps to `0`, the element is dropped, and
the whole header is declared `NotSatisfiable`. -/
theorem c3_overflow_counterexample :
    parse_range_header
        (some (RangeHeader.Bytes [ByteRangeSpec.FromTo 0 18446744073709551615]))
        10 = ResolvedRanges.NotSatisfiable ∧
      0 < min (18446744073709551615 + 1) 10 := by
  exact ⟨by decide, by decide⟩

/-- Claim C3 (amended): for every resource length `L` the parser resolves a
`bytes=` list element-wise, in client order and without coalescing (the result
is exactly the `filterMap` of the per-element resolution over the client's
list): `a-b` yields `[a, min((b+1) mod 2^64, L))` when non-empty and is
dropped otherwise (for `b = 2^64 - 1` the `u64` increment wraps to `0`, so the
element is always dropped); `a-` yields `[a, L)` when `a < L` and is dropped
otherwise; a header not of `bytes=` form (or absent) yields `None`; and if a
`bytes=` header was present but every element was dropped, the result is
`NotSatisfiable`. -/
theorem c3_resolution_amended (specs : List ByteRangeSpec) (L : Nat) :
    parse_range_header (some (RangeHeader.Bytes specs)) L =
      (let rs := specs.filterMap (fun s =>
        match s with
        | ByteRangeSpec.FromTo a b =>
            let e := min ((b + 1) % u64Mod) L
            if a < e then some ⟨a, e⟩ else none
        | ByteRangeSpec.AllFrom a =>
            if a < L then some (⟨a, L⟩ : ByteRange) else none
        | ByteRangeSpec.Last n =>
            if n < L then some (⟨L - n, L⟩ : ByteRange) else none);
      if rs.isEmpty then ResolvedRanges.NotSatisfiable
      else ResolvedRanges.Satisfiable rs) ∧
    parse_range_header none L = ResolvedRanges.None ∧
    (∀ u v : String,
      parse_range_header (some (RangeHeader.Unregistered u v)) L =
        ResolvedRanges.None) := by
  refine ⟨?_, rfl, fun u v => rfl⟩
  have hf : (fun s =>
        match s with
        | ByteRangeSpec.FromTo a b =>
            let e := min ((b + 1) % u64Mod) L
            if a < e then some (⟨a, e⟩ : ByteRange) else none
        | ByteRangeSpec.AllFrom a =>
            if a < L then some (⟨a, L⟩ : ByteRange) else none
        | ByteRangeSpec.Last n =>
            if n < L then some (⟨L - n, L⟩ : ByteRange) else none) =
      resolveSpecElemWrap L := by
    funext s
    cases s <;> rfl
  show parse_range_header (some (RangeHeader.Bytes specs)) L = _
  rw [hf]
  rw [show parse_range_header (some (RangeHeader.Bytes specs)) L =
        (if !(resolveSpecs L specs).isEmpty
         then ResolvedRanges.Satisfiable (resolveSpecs L specs)
         else ResolvedRanges.NotSatisfiable) from rfl]
  rw [resolveSpecs_eq_filterMap]
  cases hemp : (specs.filterMap (resolveSpecElemWrap L)).isEmpty <;>
    simp [hemp]

/-- Claim C8: resolving `bytes=0-18446744073709551615` (a syntactically valid
request: the last-byte position is `u64::MAX`) computes `range_to + 1`, which
overflows `u64`: with debug assertions this panics, and in release builds it
wraps to `0`, so the otherwise satisfiable range is silently dropped and the
parser answers `NotSatisfiable` (leading `serve` to a 416) instead of
`[0, 5)`.  The claim — the library never panics and `b + 1` never overflows —
is the spec's stated intent and the code contradicts it. -/
theorem c8_overflow_bug :
    parse_range_header
        (some (RangeHeader.Bytes [ByteRangeSpec.FromTo 0 18446744073709551615]))
        5 = ResolvedRanges.NotSatisfiable ∧
      (18446744073709551615 + 1) % u64Mod = 0 := by
  exact ⟨by decide, by decide⟩

/-- The request header fields consulted by `src/serving.rs`.  Header values
are raw byte strings (`http::HeaderValue`). -/
structure HeaderMap where
  if_match : Option (List Nat)
  if_none_match : Option (List Nat)
  if_unmodified_since : Option (List Nat)
  if_modified_since : Option (List Nat)
  if_range : Option (List Nat)
  range : Option (List Nat)
deriving DecidableEq

/-- The `Entity` trait of `src/serving.rs`, with `add_headers` modelled as the
ordered list of header pairs it inserts and `last_modified` as an abstract
timestamp (`SystemTime` as a natural number). -/
structure Entity where
  len : Nat
  etag : Option (List Nat)
  last_modified : Option Nat
  add_headers : List (String × List Nat)
deriving DecidableEq

/-- The external `httpdate` crate (out of the spec's scope), abstracted as
oracles: `parse_http_date` on the (ASCII) header string, and `fmt_http_date`
on a timestamp. -/
structure Externals where
  parse_http_date : List Nat → Option Nat
  fmt_http_date : Nat → List Nat

/-- `HeaderValue::to_str` succeeds only on ASCII values; compose it with the
date oracle as `src/serving.rs` does (both failure modes map to the same
error string). -/
def parseDateVal (pd : List Nat → Option Nat) (v : List Nat) : Option Nat :=
  if v.all (fun b => b < 128) then pd v else none

/-- Modelled from the spec: the weak-prefix test of the `crate::etag` module
(absent from the sources); an entity tag in wire form is weak iff it starts
with `W/`. -/
def isWeakTag (v : List Nat) : Bool := (str "W/").isPrefixOf v

/-- Modelled from the spec: `crate::etag::strong_eq` — both tags must be
non-`W/`-prefixed and byte-identical (§4.3). -/
def strong_eq (a b : List Nat) : Bool := !isWeakTag a && !isWeakTag b && a == b

/-- Modelled from the spec: `crate::etag::weak_eq` — opaque portions
byte-identical, ignoring any `W/` prefix on either side (§4.3). -/
def weak_eq (a b : List Nat) : Bool :=
  (if isWeakTag a then a.drop 2 else a) == (if isWeakTag b then b.drop 2 else b)

/-- Split a byte string on a separator byte (used for the comma-separated
entity-tag lists of §4.3 and the `bytes=` list of §4.2). -/
def splitOnByte (sep : Nat) : List Nat → List (List Nat)
  | [] => [[]]
  | b :: rest =>
      let r := splitOnByte sep rest
      if b = sep then [] :: r
      else
        match r with
        | h :: t => (b :: h) :: t
        | [] => [[b]]

/-- Modelled from the spec: `crate::etag::any_match` (§4.3) — `If-Match`
absent or `*` gives true; a non-ASCII value fails with a single-line
explanation (§4.4 step 3); otherwise true iff the entity's tag is set and
strongly equal to some listed tag. -/
def any_match (etag : Option (List Nat)) (h : HeaderMap) : Except String Bool :=
  match h.if_match with
  | none => Except.ok true
  | some v =>
      if v == str "*" then Except.ok true
      else if !(v.all (fun b => b < 128)) then Except.error "Unparseable If-Match"
      else
        match etag with
        | some t => Except.ok ((splitOnByte 44 v).any (fun item => strong_eq item t))
        | none => Except.ok false

/-- Modelled from the spec: `crate::etag::none_match` (§4.3) — `If-None-Match`
absent gives true, `*` gives false; a non-ASCII value fails; otherwise false
iff the entity's tag is set and weakly equal to some listed tag. -/
def none_match (etag : Option (List Nat)) (h : HeaderMap) : Except String Bool :=
  match h.if_none_match with
  | none => Except.ok true
  | some v =>
      if v == str "*" then Except.ok false
      else if !(v.all (fun b => b < 128)) then
        Except.error "Unparseable If-None-Match"
      else
        match etag with
        | some t =>
            Except.ok (!(splitOnByte 44 v).any (fun item => weak_eq item t))
        | none => Except.ok true

/-- `true` iff the etag-match verdict is a successful `false` (the form in
which the claim refers to "`any_match` is false" / "`none_match` is
false"). -/
def exceptIsFalse (r : Except String Bool) : Bool :=
  match r with
  | Except.ok false => true
  | _ => false

/-- The claim's date clause for `precondition_failed`: `last_modified` and
`If-Unmodified-Since` both present, the value parseable, and `last_modified`
after the parsed date. -/
def sinceClausePf (lm : Option Nat) (ius : Option (List Nat))
    (pd : List Nat → Option Nat) : Bool :=
  match lm, ius with
  | some m, some since =>
      match parseDateVal pd since with
      | some d => decide (d < m)
      | none => false
  | _, _ => false

/-- The claim's date clause for `not_modified`: `last_modified` and
`If-Modified-Since` both present, the value parseable, and `last_modified`
at or before the parsed date. -/
def sinceClauseNm (lm : Option Nat) (ims : Option (List Nat))
    (pd : List Nat → Option Nat) : Bool :=
  match lm, ims with
  | some m, some since =>
      match parseDateVal pd since with
      | some d => decide (m ≤ d)
      | none => false
  | _, _ => false

/-- The `precondition_failed` computation of `parse_modified_hdrs`
(`src/serving.rs` lines 31-40), given the already-computed `any_match`
verdict. -/
def pf_step (am : Bool) (last_modified : Option Nat)
    (if_unmodified_since : Option (List Nat)) (pd : List Nat → Option Nat) :
    Except String Bool :=
  if !am then Except.ok true
  else
    match last_modified, if_unmodified_since with
    | some m, some since =>
        match parseDateVal pd since with
        | some d => Except.ok (decide (d < m))
        | none => Except.error "Unparseable If-Unmodified-Since"
    | _, _ => Except.ok false

/-- The `not_modified` computation of `parse_modified_hdrs`
(`src/serving.rs` lines 42-51).  The source swallows a failing `none_match`
with `.unwrap_or(true)`. -/
def nm_step (nmr : Except String Bool) (last_modified : Option Nat)
    (if_modified_since : Option (List Nat)) (pd : List Nat → Option Nat) :
    Except String Bool :=
  let nmUnwrapped :=
    match nmr with
    | Except.ok b => b
    | Except.error _ => true
  if !nmUnwrapped then Except.ok true
  else
    match last_modified, if_modified_since with
    | some m, some since =>
        match parseDateVal pd since with
        | some d => Except.ok (decide (m ≤ d))
        | none => Except.error "Unparseable If-Modified-Since"
    | _, _ => Except.ok false

/-- `parse_modified_hdrs` from `src/serving.rs` lines 26-54.  A failing
`any_match` propagates its error (`?`); a failing `none_match` is swallowed
by `.unwrap_or(true)`. -/
def parse_modified_hdrs (etag : Option (List Nat)) (h : HeaderMap)
    (last_modified : Option Nat) (pd : List Nat → Option Nat) :
    Except String (Bool × Bool) :=
  match any_match etag h with
  | Except.error s => Except.error s
  | Except.ok am =>
      match pf_step am last_modified h.if_unmodified_since pd with
      | Except.error s => Except.error s
      | Except.ok precondition_failed =>
          match nm_step (none_match etag h) last_modified h.if_modified_since pd with
          | Except.error s => Except.error s
          | Except.ok not_modified =>
              Except.ok (precondition_failed, not_modified)

/-- The claim's formula for `precondition_failed`, written from the spec's
words (§4.4 step 1). -/
def precondition_failed_claim (etag : Option (List Nat)) (h : HeaderMap)
    (last_modified : Option Nat) (pd : List Nat → Option Nat) : Bool :=
  exceptIsFalse (any_match etag h) ||
    sinceClausePf last_modified h.if_unmodified_since pd

/-- The claim's formula for `not_modified`, written from the spec's words
(§4.4 step 2). -/
def not_modified_claim (etag : Option (List Nat)) (h : HeaderMap)
    (last_modified : Option Nat) (pd : List Nat → Option Nat) : Bool :=
  exceptIsFalse (none_match etag h) ||
    sinceClauseNm last_modified h.if_modified_since pd

theorem pf_step_ok (am : Bool) (lm : Option Nat) (ius : Option (List Nat))
    (pd : List Nat → Option Nat) (pf : Bool)
    (hok : pf_step am lm ius pd = Except.ok pf) :
    pf = (!am || sinceClausePf lm ius pd) := by
  cases am with
  | false =>
      simp only [pf_step, Bool.not_false, if_true, Except.ok.injEq] at hok
      simp [← hok]
  | true =>
      simp only [pf_step, Bool.not_true, if_false] at hok
      cases lm with
      | none => cases hok; rfl
      | some m =>
          cases ius with
          | none => cases hok; rfl
          | some since =>
              simp only at hok
              cases hpdv : parseDateVal pd since with
              | none => rw [hpdv] at hok; cases hok
              | some d =>
                  rw [hpdv] at hok
                  cases hok
                  simp [sinceClauseNm, sinceClausePf, hpdv]

theorem nm_step_ok (nmr : Except String Bool) (lm : Option Nat)
    (ims : Option (List Nat)) (pd : List Nat → Option Nat) (nm : Bool)
    (hok : nm_step nmr lm ims pd = Except.ok nm) :
    nm = (exceptIsFalse nmr || sinceClauseNm lm ims pd) := by
  cases nmr with
  | error s =>
      simp only [nm_step, Bool.not_true, if_false] at hok
      simp only [exceptIsFalse, Bool.false_or]
      cases lm with
      | none => cases hok; rfl
      | some m =>
          cases ims with
          | none => cases hok; rfl
          | some since =>
              simp only at hok
              cases hpdv : parseDateVal pd since with
              | none => rw [hpdv] at hok; cases hok
              | some d =>
                  rw [hpdv] at hok
                  cases hok
                  simp [sinceClauseNm, hpdv]
  | ok b =>
      cases b with
      | false =>
          simp only [nm_step, Bool.not_false, if_true, Except.ok.injEq] at hok
          simp [← hok, exceptIsFalse]
      | true =>
          simp only [nm_step, Bool.not_true, if_false] at hok
          simp only [exceptIsFalse, Bool.false_or]
          cases lm with
          | none => cases hok; rfl
          | some m =>
              cases ims with
              | none => cases hok; rfl
              | some since =>
                  simp only at hok
                  cases hpdv : parseDateVal pd since with
                  | none => rw [hpdv] at hok; cases hok
                  | some d =>
                      rw [hpdv] at hok
                      cases hok
                      simp [sinceClauseNm, hpdv]

/-- Claim C4: whenever the conditional evaluator succeeds, its
`precondition_failed` bit is set exactly when `any_match` is false or both
`last_modified` and a parseable `If-Unmodified-Since` are present with
`last_modified` after the parsed date; and its `not_modified` bit is set
exactly when `none_match` is false or both `last_modified` and a parseable
`If-Modified-Since` are present with `last_modified` at or before the parsed
date. -/
theorem c4_parse_modified_hdrs_characterization
    (etag : Option (List Nat)) (h : HeaderMap) (last_modified : Option Nat)
    (pd : List Nat → Option Nat) (pf nm : Bool)
    (hok : parse_modified_hdrs etag h last_modified pd = Except.ok (pf, nm)) :
    pf = precondition_failed_claim etag h last_modified pd ∧
      nm = not_modified_claim etag h last_modified pd := by
  unfold parse_modified_hdrs at hok
  unfold precondition_failed_claim not_modified_claim
  cases ham : any_match etag h with
  | error s => rw [ham] at hok; cases hok
  | ok am =>
      rw [ham] at hok
      simp only at hok
      cases hpf : pf_step am last_modified h.if_unmodified_since pd with
      | error s => rw [hpf] at hok; cases hok
      | ok pf0 =>
          rw [hpf] at hok
          simp only at hok
          cases hnm : nm_step (none_match etag h) last_modified
              h.if_modified_since pd with
          | error s => rw [hnm] at hok; cases hok
          | ok nm0 =>
              rw [hnm] at hok
              simp only [Except.ok.injEq, Prod.mk.injEq] at hok
              obtain ⟨hpfe, hnme⟩ := hok
              subst hpfe hnme
              refine ⟨?_, nm_step_ok (none_match etag h) last_modified
                  h.if_modified_since pd nm0 hnm⟩
              rw [pf_step_ok am last_modified h.if_unmodified_since pd pf0 hpf]
              cases am <;> rfl

/-- Concrete instantiations shared by the witnesses below: oracles whose
date parser rejects everything and whose formatter emits nothing. -/
def ext0 : Externals := ⟨fun _ => none, fun _ => []⟩

/-- A request with no conditional or range headers at all. -/
def hdrs0 : HeaderMap := ⟨none, none, none, none, none, none⟩

/-- Witness for C4 at a concrete input: entity without validators, request
without conditional headers. -/
theorem c4_witness :
    false = precondition_failed_claim none hdrs0 none ext0.parse_http_date ∧
      false = not_modified_claim none hdrs0 none ext0.parse_http_date :=
  c4_parse_modified_hdrs_characterization none hdrs0 none
    ext0.parse_http_date false false rfl

/-- Request methods as far as `serve` distinguishes them. -/
inductive Method where
  | GET
  | HEAD
  | Other
deriving DecidableEq

/-- One element of a response body stream: either literal bytes (static
strings, multipart framing) or the lazily produced `E.get_range(start..stop)`
byte stream. -/
inductive BodySeg where
  | bytes (b : List Nat)
  | entityRange (start stop : Nat)
deriving DecidableEq

/-- An `http::Response`: status, ordered header list, body stream. -/
structure Resp where
  status : Nat
  headers : List (String × List Nat)
  body : List BodySeg
deriving DecidableEq

/-- The `If-Range` etag-form test of `src/serving.rs` line 107: the value
starts with `W/"` or with `"`. -/
def etagForm (v : List Nat) : Bool :=
  (str "W/\"").isPrefixOf v || (str "\"").isPrefixOf v

/-- The `If-Range` evaluation of `serve` (`src/serving.rs` lines 103-130):
returns the possibly dropped `Range:` header together with
`include_entity_headers_on_range`. -/
def ifRangeStep (etag : Option (List Nat)) (if_range range_hdr : Option (List Nat)) :
    Option (List Nat) × Bool :=
  match if_range with
  | some v =>
      if etagForm v then
        match etag with
        | some t => if strong_eq v t then (range_hdr, false) else (none, true)
        | none => (none, true)
      else (none, true)
  | none => (range_hdr, true)

/-- Modelled from the spec: decimal number inside a `bytes=` element
(`crate::range` is absent from the sources). -/
def parseNum (bs : List Nat) : Option Nat :=
  if bs.isEmpty then none
  else
    bs.foldl
      (fun acc b =>
        match acc with
        | some n => if 48 ≤ b ∧ b ≤ 57 then some (n * 10 + (b - 48)) else none
        | none => none)
      (some 0)

/-- Modelled from the spec: one element of the `bytes=` list (§4.2) — `a-b`
with `a ≤ b`, `a-`, or `-n`; anything else makes the whole header fail to
parse. -/
def parseSpecElem (bs : List Nat) : Option ByteRangeSpec :=
  let l := bs.takeWhile (fun b => b ≠ 45)
  let rest := bs.dropWhile (fun b => b ≠ 45)
  match rest with
  | [] => none
  | _ :: r =>
      if l.isEmpty then (parseNum r).map ByteRangeSpec.Last
      else if r.isEmpty then (parseNum l).map ByteRangeSpec.AllFrom
      else
        match parseNum l, parseNum r with
        | some a, some b =>
            if a ≤ b then some (ByteRangeSpec.FromTo a b) else none
        | _, _ => none

/-- Modelled from the spec: the per-element resolution of §4.2 — `a-b` yields
`[a, min(b+1, L))` if non-empty, `a-` yields `[a, L)` if `a < L`, `-n` is
dropped if `n ≥ L` and yields `[L-n, L)` otherwise. -/
def resolveSpecElem (resource_len : Nat) : ByteRangeSpec → Option ByteRange
  | ByteRangeSpec.FromTo a b =>
      let e := min (b + 1) resource_len
      if a < e then some ⟨a, e⟩ else none
  | ByteRangeSpec.AllFrom a =>
      if a < resource_len then some ⟨a, resource_len⟩ else none
  | ByteRangeSpec.Last n =>
      if n ≥ resource_len then none else some ⟨resource_len - n, resource_len⟩

/-- Modelled from the spec: `crate::range::parse` (§4.2) — a header of
`bytes=` form is split on commas and resolved element-wise; a header not of
`bytes=` form (or absent, or with a malformed element) yields `None`; a
`bytes=` header all of whose elements were dropped yields `NotSatisfiable`. -/
def range_parse (v : Option (List Nat)) (resource_len : Nat) : ResolvedRanges :=
  match v with
  | some bs =>
      if (str "bytes=").isPrefixOf bs then
        match (splitOnByte 44 (bs.drop 6)).mapM parseSpecElem with
        | some specs =>
            let rs := specs.filterMap (resolveSpecElem resource_len)
            if rs.isEmpty then ResolvedRanges.NotSatisfiable
            else ResolvedRanges.Satisfiable rs
        | none => ResolvedRanges.None
      else ResolvedRanges.None
  | none => ResolvedRanges.None

/-- The `405 Method Not Allowed` response of `src/serving.rs` lines 78-84. -/
def resp405 : Resp :=
  { status := 405
  , headers := [("allow", str "get, head")]
  , body := [BodySeg.bytes (str "This resource only supports GET and HEAD.")] }

/-- The headers common to every non-405/400 response (`src/serving.rs`
lines 132-145): `Accept-Ranges`, then `Date` and the clamped `Last-Modified`
when the entity has one, then `ETag` when the entity has one. -/
def commonHeaders (e : Entity) (now : Nat) (ext : Externals) :
    List (String × List Nat) :=
  [("accept-ranges", str "bytes")] ++
    (match e.last_modified with
     | some m =>
         [("date", ext.fmt_http_date now),
          ("last-modified", ext.fmt_http_date (min m now))]
     | none => []) ++
    (match e.etag with
     | some t => [("etag", t)]
     | none => [])

/-- The `Content-Range: bytes S-E/L` value for a satisfied range
(`src/serving.rs` lines 164-173). -/
def contentRangeVal (r : ByteRange) (len : Nat) : List Nat :=
  str "bytes " ++ decimal r.start ++ str "-" ++ decimal (r.stop - 1) ++
    str "/" ++ decimal len

/-- The single-interval finalization of `serve` (`src/serving.rs`
lines 197-209): set `Content-Length`, pick the body by method, then let the
entity append its representation headers when they are to be included. -/
def finalize (e : Entity) (method : Method) (hdrs : List (String × List Nat))
    (status : Nat) (r : ByteRange) (include_entity_headers : Bool) : Resp :=
  { status := status
  , headers := (hdrs ++ [("content-length", decimal (r.stop - r.start))]) ++
      (if include_entity_headers then e.add_headers else [])
  , body := if method = Method.HEAD then []
      else [BodySeg.entityRange r.start r.stop] }

/-- The rendering of the entity's representation headers into each part's
header block (`src/serving.rs` lines 247-262): `key: value\r\n` repeated. -/
def renderHeaders : List (String × List Nat) → List Nat
  | [] => []
  | (k, v) :: rest => str k ++ str ": " ++ v ++ str "\r\n" ++ renderHeaders rest

/-- The multipart trailer (`src/serving.rs` line 280). -/
def TRAILER : List Nat := str "\r\n--B--\r\n"

/-- One part's `Content-Range` line (`src/serving.rs` lines 266-275). -/
def partHead (r : ByteRange) (len : Nat) : List Nat :=
  str "\r\n--B\r\nContent-Range: bytes " ++ decimal r.start ++ str "-" ++
    decimal (r.stop - 1) ++ str "/" ++ decimal len ++ str "\r\n"

/-- The part-building loop of `send_multipart` (`src/serving.rs`
lines 265-279): returns the part header blocks in order together with the
accumulated `body_len` contribution (`|block| + width` per range). -/
def buildParts (len : Nat) (eph : List Nat) :
    List ByteRange → List (List Nat) × Nat
  | [] => ([], 0)
  | r :: rest =>
      let buf := partHead r len ++ eph
      let p := buildParts len eph rest
      (buf :: p.1, buf.length + (r.stop - r.start) + p.2)

/-- One state of the body stream built by `futures::stream::unfold`
(`src/serving.rs` lines 299-313): `i = state >> 1`; at `i = N` the trailer,
at odd states the lazily fetched range, at even states the part header. -/
def multipartSeg (part_headers : List (List Nat)) (rs : List ByteRange)
    (state : Nat) : BodySeg :=
  let i := state / 2
  if i = rs.length then BodySeg.bytes TRAILER
  else if state % 2 = 1 then
    let r := rs.getD i ⟨0, 0⟩
    BodySeg.entityRange r.start r.stop
  else BodySeg.bytes (part_headers.getD i [])

/-- The full unfolded body stream: states `0, 1, …, 2N` (the unfold stops at
state `2N + 1`). -/
def multipartBody (part_headers : List (List Nat)) (rs : List ByteRange) :
    List BodySeg :=
  (List.range (2 * rs.length + 1)).map (multipartSeg part_headers rs)

/-- `send_multipart` from `src/serving.rs` lines 233-318. -/
def send_multipart (e : Entity) (method : Method)
    (hdrs : List (String × List Nat)) (rs : List ByteRange) (len : Nat)
    (include_entity_headers : Bool) : Resp :=
  let each_part_headers :=
    (if include_entity_headers then renderHeaders e.add_headers else []) ++
      str "\r\n"
  let built := buildParts len each_part_headers rs
  let body_len := built.2 + TRAILER.length
  { status := 206
  , headers := hdrs ++
      [("content-length", decimal body_len),
       ("content-type", str "multipart/byteranges; boundary=B")]
  , body := if method = Method.HEAD then [] else multipartBody built.1 rs }

/-- `serve` from `src/serving.rs` lines 70-210, with `SystemTime::now()`
passed explicitly as `now` and the external `httpdate` crate as `ext`. -/
def serve (e : Entity) (method : Method) (h : HeaderMap) (now : Nat)
    (ext : Externals) : Resp :=
  if method ≠ Method.GET ∧ method ≠ Method.HEAD then resp405
  else
    match parse_modified_hdrs e.etag h e.last_modified ext.parse_http_date with
    | Except.error s =>
        { status := 400, headers := [], body := [BodySeg.bytes (str s)] }
    | Except.ok (precondition_failed, not_modified) =>
        let st := ifRangeStep e.etag h.if_range h.range
        let res := commonHeaders e now ext
        if precondition_failed then
          { status := 412, headers := res
          , body := [BodySeg.bytes (str "Precondition failed")] }
        else if not_modified then
          { status := 304, headers := res, body := [] }
        else
          let len := e.len
          match range_parse st.1 len with
          | ResolvedRanges.None => finalize e method res 200 ⟨0, len⟩ true
          | ResolvedRanges.Satisfiable rs =>
              match rs with
              | [r] =>
                  finalize e method
                    (res ++ [("content-range", contentRangeVal r len)]) 206 r
                    st.2
              | _ =>
                  let est_len :=
                    (rs.map (fun r => 80 + (r.stop - r.start))).sum
                  if est_len < len then send_multipart e method res rs len st.2
                  else finalize e method res 200 ⟨0, len⟩ true
          | ResolvedRanges.NotSatisfiable =>
              { status := 416
              , headers := res ++
                  [("content-range", str "bytes */" ++ decimal len)]
              , body := [] }

theorem pmh_no_conditionals (g : Option (List Nat)) (h : HeaderMap)
    (lm : Option Nat) (pd : List Nat → Option Nat)
    (h1 : h.if_match = none) (h2 : h.if_none_match = none)
    (h3 : h.if_unmodified_since = none) (h4 : h.if_modified_since = none) :
    parse_modified_hdrs g h lm pd = Except.ok (false, false) := by
  unfold parse_modified_hdrs any_match none_match pf_step nm_step
  rw [h1, h2, h3, h4]
  cases lm <;> rfl

theorem serve_status_ne_400 (e : Entity) (m : Method) (h : HeaderMap)
    (now : Nat) (ext : Externals) (pf nm : Bool)
    (hm : m = Method.GET ∨ m = Method.HEAD)
    (hpm : parse_modified_hdrs e.etag h e.last_modified ext.parse_http_date =
      Except.ok (pf, nm)) :
    (serve e m h now ext).status ≠ 400 := by
  have hguard : ¬(m ≠ Method.GET ∧ m ≠ Method.HEAD) := by
    rcases hm with rfl | rfl <;> simp
  unfold serve
  rw [if_neg hguard, hpm]
  cases pf with
  | true => simp
  | false =>
      cases nm with
      | true => simp
      | false =>
          simp only [Bool.false_eq_true, if_false]
          cases hrp : range_parse (ifRangeStep e.etag h.if_range h.range).1
              e.len with
          | None => simp [finalize]
          | NotSatisfiable => simp
          | Satisfiable rs =>
              rcases rs with _ | ⟨r1, _ | ⟨r2, rest⟩⟩
              · simp only
                by_cases hest :
                    ((List.map (fun r => 80 + (r.stop - r.start))
                      ([] : List ByteRange)).sum < e.len)
                · rw [if_pos hest]; simp [send_multipart]
                · rw [if_neg hest]; simp [finalize]
              · simp [finalize]
              · simp only
                by_cases hest :
                    ((List.map (fun r => 80 + (r.stop - r.start))
                      (r1 :: r2 :: rest)).sum < e.len)
                · rw [if_pos hest]; simp [send_multipart]
                · rw [if_neg hest]; simp [finalize]

/-- Claim C5 (amended): on a GET or HEAD request, `serve` returns status 400
exactly when the conditional evaluator fails, and then the body is the
evaluator's single-line explanation.  (The evaluator fails only for an
unparseable `If-Match`, or for an unparseable `If-Unmodified-Since` /
`If-Modified-Since` that it actually consults; an unparseable
`If-None-Match` is swallowed by `.unwrap_or(true)` and never causes 400.) -/
theorem c5_amended_400 (e : Entity) (m : Method) (h : HeaderMap) (now : Nat)
    (ext : Externals) (hm : m = Method.GET ∨ m = Method.HEAD) :
    ((serve e m h now ext).status = 400 ↔
      ∃ s, parse_modified_hdrs e.etag h e.last_modified ext.parse_http_date =
        Except.error s) ∧
    (∀ s,
      parse_modified_hdrs e.etag h e.last_modified ext.parse_http_date =
        Except.error s →
      serve e m h now ext =
        { status := 400, headers := [], body := [BodySeg.bytes (str s)] }) := by
  have hguard : ¬(m ≠ Method.GET ∧ m ≠ Method.HEAD) := by
    rcases hm with rfl | rfl <;> simp
  cases hpm : parse_modified_hdrs e.etag h e.last_modified
      ext.parse_http_date with
  | error s =>
      constructor
      · constructor
        · intro _; exact ⟨s, rfl⟩
        · intro _
          unfold serve
          rw [if_neg hguard, hpm]
      · intro s' hs'
        injection hs' with he
        subst he
        unfold serve
        rw [if_neg hguard, hpm]
  | ok p =>
      obtain ⟨pf, nm⟩ := p
      have hne : (serve e m h now ext).status ≠ 400 :=
        serve_status_ne_400 e m h now ext pf nm hm hpm
      constructor
      · constructor
        · intro h400; exact absurd h400 hne
        · rintro ⟨s, hs⟩
          exact Except.noConfusion hs
      · intro s hs
        exact Except.noConfusion hs

/-- Entity used by the C5 counterexample and witness. -/
def entC5 : Entity := ⟨3, none, none, []⟩

/-- A request whose only conditional header is a non-ASCII `If-None-Match`. -/
def hdrsC5 : HeaderMap := { hdrs0 with if_none_match := some [200] }

/-- Claim C5 (counterexample): a request whose `If-None-Match` is present but
non-ASCII (byte 200), hence unparseable, is answered 200, not the claimed
400: `parse_modified_hdrs` swallows the `none_match` failure with
`.unwrap_or(true)`. -/
theorem c5_inm_counterexample :
    hdrsC5.if_none_match = some [200] ∧
      ([200].all (fun b => b < 128)) = false ∧
      (serve entC5 Method.GET hdrsC5 0 ext0).status = 200 := by decide

/-- A request whose `If-Match` is non-ASCII (used by the C5 witness). -/
def hdrsC5w : HeaderMap := { hdrs0 with if_match := some [200] }

/-- Witness for C5 (amended) at a concrete input: a non-ASCII `If-Match`
yields exactly the 400 response with the evaluator's explanation. -/
theorem c5_witness :
    (serve entC5 Method.GET hdrsC5w 0 ext0).status = 400 ∧
      serve entC5 Method.GET hdrsC5w 0 ext0 =
        { status := 400, headers := []
        , body := [BodySeg.bytes (str "Unparseable If-Match")] } := by
  have h := c5_amended_400 entC5 Method.GET hdrsC5w 0 ext0 (Or.inl rfl)
  exact ⟨h.1.mpr ⟨"Unparseable If-Match", rfl⟩,
    h.2 "Unparseable If-Match" rfl⟩

theorem serve_ok_single (e : Entity) (m : Method) (h : HeaderMap) (now : Nat)
    (ext : Externals) (rh : Option (List Nat)) (ieh : Bool) (r : ByteRange)
    (hm : m = Method.GET ∨ m = Method.HEAD)
    (hpm : parse_modified_hdrs e.etag h e.last_modified ext.parse_http_date =
      Except.ok (false, false))
    (hst : ifRangeStep e.etag h.if_range h.range = (rh, ieh))
    (hrp : range_parse rh e.len = ResolvedRanges.Satisfiable [r]) :
    serve e m h now ext =
      finalize e m
        (commonHeaders e now ext ++
          [("content-range", contentRangeVal r e.len)]) 206 r ieh := by
  have hguard : ¬(m ≠ Method.GET ∧ m ≠ Method.HEAD) := by
    rcases hm with rfl | rfl <;> simp
  unfold serve
  rw [if_neg hguard, hpm]
  simp only [hst, hrp]
  rfl

theorem serve_ok_none (e : Entity) (m : Method) (h : HeaderMap) (now : Nat)
    (ext : Externals) (rh : Option (List Nat)) (ieh : Bool)
    (hm : m = Method.GET ∨ m = Method.HEAD)
    (hpm : parse_modified_hdrs e.etag h e.last_modified ext.parse_http_date =
      Except.ok (false, false))
    (hst : ifRangeStep e.etag h.if_range h.range = (rh, ieh))
    (hrp : range_parse rh e.len = ResolvedRanges.None) :
    serve e m h now ext =
      finalize e m (commonHeaders e now ext) 200 ⟨0, e.len⟩ true := by
  have hguard : ¬(m ≠ Method.GET ∧ m ≠ Method.HEAD) := by
    rcases hm with rfl | rfl <;> simp
  unfold serve
  rw [if_neg hguard, hpm]
  simp only [hst, hrp]
  rfl

theorem serve_ok_multi (e : Entity) (m : Method) (h : HeaderMap) (now : Nat)
    (ext : Externals) (rh : Option (List Nat)) (ieh : Bool)
    (rs : List ByteRange)
    (hm : m = Method.GET ∨ m = Method.HEAD)
    (hpm : parse_modified_hdrs e.etag h e.last_modified ext.parse_http_date =
      Except.ok (false, false))
    (hst : ifRangeStep e.etag h.if_range h.range = (rh, ieh))
    (hrp : range_parse rh e.len = ResolvedRanges.Satisfiable rs)
    (hlen : 2 ≤ rs.length) :
    serve e m h now ext =
      (if (rs.map (fun r => 80 + (r.stop - r.start))).sum < e.len
       then send_multipart e m (commonHeaders e now ext) rs e.len ieh
       else finalize e m (commonHeaders e now ext) 200 ⟨0, e.len⟩ true) := by
  have hguard : ¬(m ≠ Method.GET ∧ m ≠ Method.HEAD) := by
    rcases hm with rfl | rfl <;> simp
  unfold serve
  rw [if_neg hguard, hpm]
  simp only [hst, hrp]
  rcases rs with _ | ⟨r1, _ | ⟨r2, rest⟩⟩
  · simp at hlen
  · simp at hlen
  · rfl

/-- Claim C6: on a GET/HEAD request with no other conditional headers and a
`Range:` header that resolves to the single interval `r`, the `If-Range`
handling of `serve` behaves as claimed: an etag-form value that strongly
matches the entity's etag honors the range (206) and suppresses the
representation headers; an etag-form value that does not strongly match (or
an entity without an etag) drops the range (200 over the whole entity) and
includes the representation headers; a date-form value always drops the
range; an absent `If-Range` honors the range and includes the representation
headers. -/
theorem c6_if_range_behavior (e : Entity) (m : Method) (h : HeaderMap)
    (now : Nat) (ext : Externals) (rv : List Nat) (r : ByteRange)
    (hm : m = Method.GET ∨ m = Method.HEAD)
    (h1 : h.if_match = none) (h2 : h.if_none_match = none)
    (h3 : h.if_unmodified_since = none) (h4 : h.if_modified_since = none)
    (hR : h.range = some rv)
    (hrp : range_parse (some rv) e.len = ResolvedRanges.Satisfiable [r]) :
    (∀ v t, h.if_range = some v → etagForm v = true → e.etag = some t →
      strong_eq v t = true →
      serve e m h now ext =
        { status := 206
        , headers := (commonHeaders e now ext ++
            [("content-range", contentRangeVal r e.len)]) ++
            [("content-length", decimal (r.stop - r.start))]
        , body := if m = Method.HEAD then []
            else [BodySeg.entityRange r.start r.stop] }) ∧
    (∀ v, h.if_range = some v → etagForm v = true →
      (e.etag = none ∨ ∀ t, e.etag = some t → strong_eq v t = false) →
      serve e m h now ext =
        { status := 200
        , headers := (commonHeaders e now ext ++
            [("content-length", decimal e.len)]) ++ e.add_headers
        , body := if m = Method.HEAD then []
            else [BodySeg.entityRange 0 e.len] }) ∧
    (∀ v, h.if_range = some v → etagForm v = false →
      serve e m h now ext =
        { status := 200
        , headers := (commonHeaders e now ext ++
            [("content-length", decimal e.len)]) ++ e.add_headers
        , body := if m = Method.HEAD then []
            else [BodySeg.entityRange 0 e.len] }) ∧
    (h.if_range = none →
      serve e m h now ext =
        { status := 206
        , headers := ((commonHeaders e now ext ++
            [("content-range", contentRangeVal r e.len)]) ++
            [("content-length", decimal (r.stop - r.start))]) ++ e.add_headers
        , body := if m = Method.HEAD then []
            else [BodySeg.entityRange r.start r.stop] }) := by
  have hpm : parse_modified_hdrs e.etag h e.last_modified
      ext.parse_http_date = Except.ok (false, false) :=
    pmh_no_conditionals e.etag h e.last_modified ext.parse_http_date h1 h2 h3 h4
  refine ⟨?_, ?_, ?_, ?_⟩
  · intro v t hv hef het hse
    have hst : ifRangeStep e.etag h.if_range h.range = (some rv, false) := by
      unfold ifRangeStep
      rw [hv, het, hR]
      simp [hef, hse]
    rw [serve_ok_single e m h now ext (some rv) false r hm hpm hst hrp]
    simp [finalize]
  · intro v hv hef hns
    have hst : ifRangeStep e.etag h.if_range h.range = (none, true) := by
      unfold ifRangeStep
      rw [hv]
      simp only [hef, if_true]
      rcases hns with hnone | hforall
      · rw [hnone]
      · cases het : e.etag with
        | none => rfl
        | some t => simp [hforall t het]
    rw [serve_ok_none e m h now ext none true hm hpm hst rfl]
    simp [finalize]
  · intro v hv hef
    have hst : ifRangeStep e.etag h.if_range h.range = (none, true) := by
      unfold ifRangeStep
      rw [hv]
      simp [hef]
    rw [serve_ok_none e m h now ext none true hm hpm hst rfl]
    simp [finalize]
  · intro hv
    have hst : ifRangeStep e.etag h.if_range h.range = (some rv, true) := by
      unfold ifRangeStep
      rw [hv, hR]
    rw [serve_ok_single e m h now ext (some rv) true r hm hpm hst hrp]
    simp [finalize]

/-- Entity used by the C6 witness: length 10, strong etag `"t"`, one
representation header. -/
def entC6 : Entity :=
  ⟨10, some (str "\"t\""), none, [("content-type", str "text/plain")]⟩

/-- Request used by the C6 witness: `Range: bytes=2-4` with a strongly
matching etag-form `If-Range`. -/
def hdrsC6 : HeaderMap :=
  ⟨none, none, none, none, some (str "\"t\""), some (str "bytes=2-4")⟩

/-- Witness for C6 at a concrete input: the strong-match case honors the
range and suppresses the representation headers. -/
theorem c6_witness :
    serve entC6 Method.GET hdrsC6 0 ext0 =
      { status := 206
      , headers := (commonHeaders entC6 0 ext0 ++
          [("content-range", contentRangeVal ⟨2, 5⟩ 10)]) ++
          [("content-length", decimal 3)]
      , body := [BodySeg.entityRange 2 5] } :=
  (c6_if_range_behavior entC6 Method.GET hdrsC6 0 ext0 (str "bytes=2-4")
      ⟨2, 5⟩ (Or.inl rfl) rfl rfl rfl rfl rfl (by decide)).1
    (str "\"t\"") (str "\"t\"") rfl (by decide) rfl (by decide)

theorem buildParts_eq (len : Nat) (eph : List Nat) :
    ∀ rs : List ByteRange,
      buildParts len eph rs =
        (rs.map (fun r => partHead r len ++ eph),
         (rs.map (fun r =>
           (partHead r len ++ eph).length + (r.stop - r.start))).sum)
  | [] => rfl
  | r :: rs => by
      unfold buildParts
      rw [buildParts_eq len eph rs]
      simp [List.sum_cons]

theorem multipartSeg_shift (p : List Nat) (ps : List (List Nat))
    (r : ByteRange) (rs : List ByteRange) (state : Nat) :
    multipartSeg (p :: ps) (r :: rs) (state + 2) = multipartSeg ps rs state := by
  unfold multipartSeg
  have hdiv : (state + 2) / 2 = state / 2 + 1 := by omega
  have hmod : (state + 2) % 2 = state % 2 := by omega
  rw [hdiv, hmod]
  simp [List.length_cons, Nat.add_right_cancel_iff, List.getD_cons_succ]

theorem multipartBody_cons (f : ByteRange → List Nat) (r : ByteRange)
    (rs : List ByteRange) :
    multipartBody ((r :: rs).map f) (r :: rs) =
      BodySeg.bytes (f r) :: BodySeg.entityRange r.start r.stop ::
        multipartBody (rs.map f) rs := by
  unfold multipartBody
  have h3 : 2 * (r :: rs).length + 1 = ((2 * rs.length + 1) + 1) + 1 := by
    simp [List.length_cons]
    ring
  rw [h3, List.range_succ_eq_map, List.range_succ_eq_map]
  simp only [List.map_cons, List.map_map]
  have h0 : multipartSeg (f r :: rs.map f) (r :: rs) 0 =
      BodySeg.bytes (f r) := by
    simp [multipartSeg]
  have h1 : multipartSeg (f r :: rs.map f) (r :: rs) (Nat.succ 0) =
      BodySeg.entityRange r.start r.stop := by
    simp [multipartSeg]
  rw [h0, h1]
  have hfun : (multipartSeg (f r :: rs.map f) (r :: rs) ∘ Nat.succ ∘ Nat.succ) =
      multipartSeg (rs.map f) rs := by
    funext state
    show multipartSeg (f r :: rs.map f) (r :: rs) (state + 1 + 1) = _
    have h2 : state + 1 + 1 = state + 2 := by omega
    rw [h2]
    exact multipartSeg_shift (f r) (rs.map f) r rs state
  rw [hfun]

theorem multipartBody_map (f : ByteRange → List Nat) :
    ∀ rs : List ByteRange,
      multipartBody (rs.map f) rs =
        rs.flatMap (fun r =>
          [BodySeg.bytes (f r), BodySeg.entityRange r.start r.stop]) ++
          [BodySeg.bytes TRAILER]
  | [] => rfl
  | r :: rs => by
      rw [multipartBody_cons, multipartBody_map f rs]
      rfl

theorem flatMapPair_length (g g2 : ByteRange → BodySeg) :
    ∀ rs : List ByteRange,
      (rs.flatMap (fun r => [g r, g2 r])).length = 2 * rs.length
  | [] => rfl
  | r :: rs => by
      rw [List.flatMap_cons, List.length_append, flatMapPair_length g g2 rs]
      simp [List.length_cons]
      ring

/-- The claim's formula for part i's header block (§4.6): the boundary and
`Content-Range` line, followed by the rendered representation headers when
they are included (or just the blank line when they are suppressed). -/
def claimPartBlock (e : Entity) (inc : Bool) (len : Nat) (r : ByteRange) :
    List Nat :=
  str "\r\n--B\r\nContent-Range: bytes " ++ decimal r.start ++ str "-" ++
    decimal (r.stop - 1) ++ str "/" ++ decimal len ++ str "\r\n" ++
    ((if inc then renderHeaders e.add_headers else []) ++ str "\r\n")

/-- Claim C7: the multipart framer emits exactly the claimed byte layout: the
`Content-Length` header is the sum of each part's header-block length plus
its range width, plus the trailer length; for GET the body is the lazy
stream of `2N + 1` segments — part i's header block then `E.get_range(r_i)`,
in client order, then the trailer `\r\n--B--\r\n` — and for HEAD the body is
empty with the same headers. -/
theorem c7_multipart_framing (e : Entity) (hdrs : List (String × List Nat))
    (rs : List ByteRange) (len : Nat) (inc : Bool) :
    (send_multipart e Method.GET hdrs rs len inc).headers =
      hdrs ++
        [("content-length",
          decimal ((rs.map (fun r =>
            (claimPartBlock e inc len r).length + (r.stop - r.start))).sum +
            TRAILER.length)),
         ("content-type", str "multipart/byteranges; boundary=B")] ∧
    (send_multipart e Method.GET hdrs rs len inc).status = 206 ∧
    (send_multipart e Method.GET hdrs rs len inc).body =
      rs.flatMap (fun r =>
        [BodySeg.bytes (claimPartBlock e inc len r),
         BodySeg.entityRange r.start r.stop]) ++ [BodySeg.bytes TRAILER] ∧
    (send_multipart e Method.GET hdrs rs len inc).body.length =
      2 * rs.length + 1 ∧
    (send_multipart e Method.HEAD hdrs rs len inc).headers =
      (send_multipart e Method.GET hdrs rs len inc).headers ∧
    (send_multipart e Method.HEAD hdrs rs len inc).body = [] := by
  have hbp := buildParts_eq len
    ((if inc then renderHeaders e.add_headers else []) ++ str "\r\n") rs
  have hbody : (send_multipart e Method.GET hdrs rs len inc).body =
      rs.flatMap (fun r =>
        [BodySeg.bytes (claimPartBlock e inc len r),
         BodySeg.entityRange r.start r.stop]) ++ [BodySeg.bytes TRAILER] := by
    show multipartBody (buildParts len
        ((if inc then renderHeaders e.add_headers else []) ++ str "\r\n")
        rs).1 rs = _
    rw [show (buildParts len
        ((if inc then renderHeaders e.add_headers else []) ++ str "\r\n")
        rs).1 =
      rs.map (fun r => partHead r len ++
        ((if inc then renderHeaders e.add_headers else []) ++ str "\r\n"))
      from by rw [hbp]]
    rw [multipartBody_map]
    rfl
  refine ⟨?_, rfl, hbody, ?_, rfl, rfl⟩
  · show hdrs ++ _ = _
    rw [show (buildParts len
        ((if inc then renderHeaders e.add_headers else []) ++ str "\r\n")
        rs).2 =
      (rs.map (fun r =>
        (partHead r len ++
          ((if inc then renderHeaders e.add_headers else []) ++
            str "\r\n")).length + (r.stop - r.start))).sum from by rw [hbp]]
    rfl
  · rw [hbody, List.length_append,
      flatMapPair_length
        (fun r => BodySeg.bytes (claimPartBlock e inc len r))
        (fun r => BodySeg.entityRange r.start r.stop) rs]
    rfl

theorem serve_method_agnostic (e : Entity) (h : HeaderMap) (now : Nat)
    (ext : Externals) :
    (serve e Method.GET h now ext).status =
        (serve e Method.HEAD h now ext).status ∧
      (serve e Method.GET h now ext).headers =
        (serve e Method.HEAD h now ext).headers := by
  cases hpm : parse_modified_hdrs e.etag h e.last_modified
      ext.parse_http_date with
  | error s =>
      constructor <;> (unfold serve; rw [hpm])
      all_goals rfl
  | ok p =>
      obtain ⟨pf, nm⟩ := p
      constructor <;> (unfold serve; rw [hpm]) <;>
        cases pf <;> cases nm <;> try rfl
      all_goals
        cases hrp : range_parse (ifRangeStep e.etag h.if_range h.range).1
            e.len with
        | None => simp only [hrp]; rfl
        | NotSatisfiable => simp only [hrp]; rfl
        | Satisfiable rs =>
            simp only [hrp]
            rcases rs with _ | ⟨r1, _ | ⟨r2, rest⟩⟩
            · by_cases hest :
                  ((List.map (fun r => 80 + (r.stop - r.start))
                    ([] : List ByteRange)).sum < e.len)
              · simp only [if_pos hest]; rfl
              · simp only [if_neg hest]; rfl
            · rfl
            · by_cases hest :
                  ((List.map (fun r => 80 + (r.stop - r.start))
                    (r1 :: r2 :: rest)).sum < e.len)
              · simp only [if_pos hest]; rfl
              · simp only [if_neg hest]; rfl

/-- Claim C9 (amended): for every entity and request header map, `serve` under
HEAD produces the same status code and the same header list as under GET; the
HEAD body is empty on every path except the two diagnostic short-circuits
(400 parse failure and 412 precondition failure, whose small plain-text body
is attached for HEAD as well); and a HEAD request whose `Range:` header
resolves to a single satisfiable range still yields 206 with `Content-Range`,
`Content-Length` equal to the range width, and an empty body. -/
theorem c9_head_get_amended (e : Entity) (h : HeaderMap) (now : Nat)
    (ext : Externals) :
    (serve e Method.GET h now ext).status =
        (serve e Method.HEAD h now ext).status ∧
      (serve e Method.GET h now ext).headers =
        (serve e Method.HEAD h now ext).headers ∧
      ((serve e Method.HEAD h now ext).status ≠ 400 →
        (serve e Method.HEAD h now ext).status ≠ 412 →
        (serve e Method.HEAD h now ext).body = []) ∧
      (∀ (rv : List Nat) (r : ByteRange),
        h.if_match = none → h.if_none_match = none →
        h.if_unmodified_since = none → h.if_modified_since = none →
        h.if_range = none → h.range = some rv →
        range_parse (some rv) e.len = ResolvedRanges.Satisfiable [r] →
        (serve e Method.HEAD h now ext).status = 206 ∧
          (serve e Method.HEAD h now ext).headers =
            (commonHeaders e now ext ++
              [("content-range", contentRangeVal r e.len)]) ++
              [("content-length", decimal (r.stop - r.start))] ++
              e.add_headers ∧
          (serve e Method.HEAD h now ext).body = []) := by
  refine ⟨(serve_method_agnostic e h now ext).1,
    (serve_method_agnostic e h now ext).2, ?_, ?_⟩
  · intro h400 h412
    cases hpm : parse_modified_hdrs e.etag h e.last_modified
        ext.parse_http_date with
    | error s =>
        exact absurd (show (serve e Method.HEAD h now ext).status = 400 from by
          unfold serve; rw [hpm]; rfl) h400
    | ok p =>
        obtain ⟨pf, nm⟩ := p
        cases pf with
        | true =>
            exact absurd (show (serve e Method.HEAD h now ext).status = 412
              from by unfold serve; rw [hpm]; rfl) h412
        | false =>
            cases nm with
            | true => unfold serve; rw [hpm]; rfl
            | false =>
                unfold serve
                rw [hpm]
                cases hrp : range_parse
                    (ifRangeStep e.etag h.if_range h.range).1 e.len with
                | None => simp only [hrp]; rfl
                | NotSatisfiable => simp only [hrp]; rfl
                | Satisfiable rs =>
                    simp only [hrp]
                    rcases rs with _ | ⟨r1, _ | ⟨r2, rest⟩⟩
                    · by_cases hest :
                          ((List.map (fun r => 80 + (r.stop - r.start))
                            ([] : List ByteRange)).sum < e.len)
                      · simp only [if_pos hest]; rfl
                      · simp only [if_neg hest]; rfl
                    · rfl
                    · by_cases hest :
                          ((List.map (fun r => 80 + (r.stop - r.start))
                            (r1 :: r2 :: rest)).sum < e.len)
                      · simp only [if_pos hest]; rfl
                      · simp only [if_neg hest]; rfl
  · intro rv r h1 h2 h3 h4 hIR hR hrp
    have hpm : parse_modified_hdrs e.etag h e.last_modified
        ext.parse_http_date = Except.ok (false, false) :=
      pmh_no_conditionals e.etag h e.last_modified ext.parse_http_date
        h1 h2 h3 h4
    have hst : ifRangeStep e.etag h.if_range h.range = (some rv, true) := by
      unfold ifRangeStep
      rw [hIR, hR]
    rw [serve_ok_single e Method.HEAD h now ext (some rv) true r
      (Or.inr rfl) hpm hst hrp]
    refine ⟨rfl, ?_, rfl⟩
    simp [finalize]

/-- Entity used by the C9 counterexample: etag `"x"`. -/
def entC9 : Entity := ⟨5, some (str "\"x\""), none, []⟩

/-- Request used by the C9 counterexample: `If-Match: "y"`, which does not
strongly match `"x"`, so the precondition fails. -/
def hdrsC9 : HeaderMap := { hdrs0 with if_match := some (str "\"y\"") }

/-- Claim C9 (counterexample): a HEAD request that fails its `If-Match`
precondition is answered 412 with the body `Precondition failed` — not the
empty body the claim promises for every HEAD response. -/
theorem c9_head_body_counterexample :
    (serve entC9 Method.HEAD hdrsC9 0 ext0).status = 412 ∧
      (serve entC9 Method.HEAD hdrsC9 0 ext0).body =
        [BodySeg.bytes (str "Precondition failed")] ∧
      (serve entC9 Method.HEAD hdrsC9 0 ext0).body ≠ [] := by decide

/-- Entity and request used by the C9 witness. -/
def entC9w : Entity := ⟨10, none, none, []⟩

/-- A bare `Range: bytes=2-4` request. -/
def hdrsC9w : HeaderMap := ⟨none, none, none, none, none, some (str "bytes=2-4")⟩

/-- Witness for C9 (amended) at a concrete input: a HEAD request with
`Range: bytes=2-4` against a 10-byte entity yields 206, `Content-Range`,
`Content-Length: 3`, and an empty body. -/
theorem c9_witness :
    (serve entC9w Method.HEAD hdrsC9w 0 ext0).status = 206 ∧
      (serve entC9w Method.HEAD hdrsC9w 0 ext0).headers =
        (commonHeaders entC9w 0 ext0 ++
          [("content-range", contentRangeVal ⟨2, 5⟩ 10)]) ++
          [("content-length", decimal 3)] ++ entC9w.add_headers ∧
      (serve entC9w Method.HEAD hdrsC9w 0 ext0).body = [] :=
  (c9_head_get_amended entC9w hdrsC9w 0 ext0).2.2.2 (str "bytes=2-4") ⟨2, 5⟩
    rfl rfl rfl rfl rfl rfl (by decide)

/-- Claim C10: whenever `serve` resolves the request to multiple satisfiable
ranges but the estimated multipart length (`Σ (80 + width)`) is at least the
entity length, it falls back to a 200 response over the whole entity whose
headers always end with the entity's representation headers
(`E.add_headers`), regardless of the `include_entity_headers_on_range`
verdict (`ieh`) that the `If-Range` evaluation produced. -/
theorem c10_multipart_fallback (e : Entity) (m : Method) (h : HeaderMap)
    (now : Nat) (ext : Externals) (rh : Option (List Nat)) (ieh : Bool)
    (rs : List ByteRange)
    (hm : m = Method.GET ∨ m = Method.HEAD)
    (hpm : parse_modified_hdrs e.etag h e.last_modified ext.parse_http_date =
      Except.ok (false, false))
    (hst : ifRangeStep e.etag h.if_range h.range = (rh, ieh))
    (hrp : range_parse rh e.len = ResolvedRanges.Satisfiable rs)
    (hlen : 2 ≤ rs.length)
    (hest : ¬((rs.map (fun r => 80 + (r.stop - r.start))).sum < e.len)) :
    serve e m h now ext =
      { status := 200
      , headers := (commonHeaders e now ext ++
          [("content-length", decimal e.len)]) ++ e.add_headers
      , body := if m = Method.HEAD then []
          else [BodySeg.entityRange 0 e.len] } := by
  rw [serve_ok_multi e m h now ext rh ieh rs hm hpm hst hrp hlen,
    if_neg hest]
  simp [finalize]

/-- Entity used by the C10 witness: length 100, strong etag, one
representation header. -/
def entC10 : Entity :=
  ⟨100, some (str "\"t\""), none, [("content-type", str "text/plain")]⟩

/-- Request used by the C10 witness: two tiny ranges (estimated multipart
length 162 ≥ 100) and a strongly matching `If-Range`, which sets
`include_entity_headers_on_range` to `false`. -/
def hdrsC10 : HeaderMap :=
  ⟨none, none, none, none, some (str "\"t\""), some (str "bytes=0-0,2-2")⟩

/-- Witness for C10 at a concrete input: the fallback 200 response includes
`Content-Type` from `add_headers` even though the `If-Range` match had chosen
to suppress representation headers for a partial response. -/
theorem c10_witness :
    serve entC10 Method.GET hdrsC10 0 ext0 =
      { status := 200
      , headers := (commonHeaders entC10 0 ext0 ++
          [("content-length", decimal 100)]) ++ entC10.add_headers
      , body := [BodySeg.entityRange 0 100] } :=
  c10_multipart_fallback entC10 Method.GET hdrsC10 0 ext0
    (some (str "bytes=0-0,2-2")) false [⟨0, 1⟩, ⟨2, 3⟩] (Or.inl rfl)
    rfl rfl rfl (by decide) (by decide)
